import Mathlib

/-!
Shallow embedding of `handlers.py` (nekro-plugin-webapp): the health check
endpoint (`health_check`) and the Worker reverse proxy (`proxy_worker`).

Modelling conventions:
* Python strings are Lean `String`; request/response bodies are byte lists
  (`List Nat`), where the empty list models both an absent and a zero-length
  body (Python `request.body()` returns `b""` in both cases).
* The configured `config.WORKER_URL` is a `String`; the empty string models
  both `None` and `""` (Python truthiness: both are falsy in
  `if not config.WORKER_URL`).
* Header collections carried by the transport are ordered lists of
  `(name, value)` pairs (duplicates possible); a Python dict built from them
  by a comprehension is an association list where inserting an existing key
  overwrites its value in place (`dictInsert`). On the request side,
  Starlette's `request.headers.items()` yields the raw pair list; on the
  response side, httpx's `Headers.items()` first coalesces duplicate names
  into a single comma separated value (`httpxItems`).
* The outbound httpx call is a parameter `worker : OutboundRequest → WorkerResult`:
  it either returns a response (status, headers, content) or raises one of the
  exceptions `PyException` mirrors (httpx class hierarchy:
  `TimeoutException`, `ConnectError`/`ProtocolError` (transport errors) and
  `HTTPStatusError` are all subclasses of `HTTPError`).
* JSON decoding of the health probe body is `WorkerJson`: either an object
  with an optional boolean `initialized` field, or a decode failure carrying
  the exception text (`response.json()` raising, or `.get` on a non-dict).
-/

/-- Python `s.rstrip('/')`: drop every trailing `'/'`. -/
def rstripSlash (s : String) : String :=
  ⟨(s.data.reverse.dropWhile (fun c => c = '/')).reverse⟩

/-- Python `s.lstrip('/')`: drop every leading `'/'`. -/
def lstripSlash (s : String) : String :=
  ⟨s.data.dropWhile (fun c => c = '/')⟩

/-- Line 87: `worker_url = f"{config.WORKER_URL.rstrip('/')}/{path.lstrip('/')}"`. -/
def buildWorkerUrl (base path : String) : String :=
  rstripSlash base ++ "/" ++ lstripSlash path

/-- Strip at most one trailing `'/'` (the spec sentence's "exactly one trailing
slash"); used only to compare the spec's wording with the code. -/
def stripOneTrailingSlash (s : String) : String :=
  if s.data.getLast? = some '/' then ⟨s.data.dropLast⟩ else s

/-- Strip at most one leading `'/'` (the spec sentence's "exactly one leading
slash"); used only to compare the spec's wording with the code. -/
def stripOneLeadingSlash (s : String) : String :=
  match s.data with
  | '/' :: rest => ⟨rest⟩
  | _ => s

/-- The join rule as the spec sentence words it: strip exactly one slash from
each side of the join point. -/
def buildWorkerUrlSpecStripOne (base path : String) : String :=
  stripOneTrailingSlash base ++ "/" ++ stripOneLeadingSlash path

/-- Python `name.lower()` (header names are ASCII). -/
def lowerName (s : String) : String :=
  ⟨s.data.map Char.toLower⟩

/-- Python dict assignment `d[k] = v` on an association list: overwrite the
value in place when the key is present, append otherwise. -/
def dictInsert (d : List (String × String)) (k v : String) : List (String × String) :=
  if d.any (fun kv => kv.1 = k) then
    d.map (fun kv => if kv.1 = k then (kv.1, v) else kv)
  else
    d ++ [(k, v)]

/-- One step of the header-filtering dict comprehension
`{key: value for key, value in items if key.lower() not in deny}`. -/
def filterHeadersStep (deny : List String) (d : List (String × String))
    (kv : String × String) : List (String × String) :=
  if deny.contains (lowerName kv.1) then d else dictInsert d kv.1 kv.2

/-- The header-filtering dict comprehension over the transport's items. -/
def filterHeaders (deny : List String) (items : List (String × String)) :
    List (String × String) :=
  items.foldl (filterHeadersStep deny) []

/-- The predicate a header item must satisfy to be kept. -/
def headerKept (deny : List String) (kv : String × String) : Bool :=
  !(deny.contains (lowerName kv.1))

/-- Lines 97-103: names dropped from the inbound request headers. -/
def requestHeaderDeny : List String :=
  ["host", "connection", "content-length", "accept-encoding"]

/-- Lines 120-126: names dropped from the Worker's response headers. -/
def responseHeaderDeny : List String :=
  ["content-encoding", "content-length", "transfer-encoding", "connection"]

/-- The httpx exceptions the handler's `except` chain distinguishes.
`timeout` is `httpx.TimeoutException`; `connectError` and `protocolError` are
the other transport-level `httpx.HTTPError` subclasses (connection refused,
DNS failure, protocol error); `statusError` is `httpx.HTTPStatusError`
(carrying `e.response.status_code` and `e.response.text`); `other` is any
non-httpx `Exception`. -/
inductive PyException where
  | timeout (msg : String)
  | statusError (code : Nat) (text : String)
  | connectError (msg : String)
  | protocolError (msg : String)
  | other (msg : String)
deriving DecidableEq

/-- Membership in class `httpx.TimeoutException`. -/
def isTimeoutException : PyException → Bool
  | .timeout _ => true
  | _ => false

/-- Membership in class `httpx.HTTPStatusError`. -/
def isHTTPStatusError : PyException → Bool
  | .statusError _ _ => true
  | _ => false

/-- Membership in class `httpx.HTTPError` (every httpx exception above is a
subclass of it; only a non-httpx `Exception` is not). -/
def isHTTPError : PyException → Bool
  | .other _ => false
  | _ => true

/-- What the outbound httpx call produced: a Worker response (with the raw
transport header pairs, duplicates possible — httpx exposes them through
`Headers`) or an exception. -/
inductive WorkerResult where
  | response (status : Nat) (headers : List (String × String)) (content : List Nat)
  | exc (e : PyException)
deriving DecidableEq

/-- The inbound request as the proxy reads it: method, transport header items,
query parameters, raw body bytes. -/
structure ProxyRequest where
  method : String
  headers : List (String × String)
  query_params : List (String × String)
  body : List Nat
deriving DecidableEq

/-- The outbound `client.request(...)` call's arguments (lines 108-114). -/
structure OutboundRequest where
  method : String
  url : String
  headers : List (String × String)
  content : Option (List Nat)
  params : List (String × String)
deriving DecidableEq

/-- What the proxy endpoint produces: a relayed response, or an
`HTTPException(status_code, detail)`. -/
inductive ProxyOutcome where
  | response (status : Nat) (headers : List (String × String)) (content : List Nat)
  | httpError (status : Nat) (detail : String)
deriving DecidableEq

/-- Line 83's `HTTPException` detail text. -/
def configErrorDetail : String :=
  "Worker URL 未配置，请先在插件配置中设置 WORKER_URL"

/-- Lines 80-114: the outbound request the proxy issues, or `none` when the
Worker URL is unconfigured (in which case line 81 raises before any outbound
work). `content` is `body if body else None`: no body at all when the inbound
body is empty. -/
def outboundRequestOf (worker_url path : String) (req : ProxyRequest) :
    Option OutboundRequest :=
  if worker_url = "" then none
  else some
    { method := req.method
      url := buildWorkerUrl worker_url path
      headers := filterHeaders requestHeaderDeny req.headers
      content := if req.body.isEmpty then none else some req.body
      params := req.query_params }

/-- Lines 136-159: the `except` chain. `httpx.TimeoutException` is caught
first (504), then `httpx.HTTPStatusError` (the Worker's own status code),
then any other `httpx.HTTPError` (502), then any `Exception` (500). The
constructor split of `PyException` encodes the class hierarchy, so this match
is the chain with its textual order. -/
def handleProxyException : PyException → ProxyOutcome
  | .timeout msg => .httpError 504 ("Worker 请求超时: " ++ msg)
  | .statusError code text => .httpError code ("Worker 返回错误: " ++ text)
  | .connectError msg => .httpError 502 ("Worker 请求失败: " ++ msg)
  | .protocolError msg => .httpError 502 ("Worker 请求失败: " ++ msg)
  | .other msg => .httpError 500 ("代理请求出错: " ++ msg)

/-- One step of httpx `Headers.items()` over the raw header pairs: when the
name was already seen, its value is extended with `", "` and the new value
(httpx concatenates headers into a single comma separated value when a key
occurs multiple times); otherwise the pair is appended. -/
def httpxJoinStep (d : List (String × String)) (kv : String × String) :
    List (String × String) :=
  if d.any (fun p => p.1 = kv.1) then
    d.map (fun p => if p.1 = kv.1 then (p.1, p.2 ++ ", " ++ kv.2) else p)
  else
    d ++ [kv]

/-- httpx `Headers.items()` (the iterator of line 119): the raw transport
header pairs coalesced into a key-unique list in first-occurrence order,
duplicate names comma-joined. -/
def httpxItems (raw : List (String × String)) : List (String × String) :=
  raw.foldl httpxJoinStep []

/-- Lines 70-159: the proxy endpoint. On a Worker response the status code and
content are copied verbatim and the headers filtered (lines 116-134); the
iteration at line 119 is over httpx `Headers.items()`, which has already
comma-joined any duplicate raw header names, and the dict comprehension then
filters that key-unique list. On an exception the `except` chain classifies
it. -/
def proxy_worker (worker_url path : String) (req : ProxyRequest)
    (worker : OutboundRequest → WorkerResult) : ProxyOutcome :=
  match outboundRequestOf worker_url path req with
  | none => .httpError 400 configErrorDetail
  | some ob =>
    match worker ob with
    | .response status hs content =>
        .response status (filterHeaders responseHeaderDeny (httpxItems hs)) content
    | .exc e => handleProxyException e

/-- Decoding of the health probe's body: `obj init?` models
`response.json()` returning a dict whose optional `initialized` field is
`init?`; `parseFailure msg` models `response.json()` raising (unparsable
body) or `.get` raising on a non-dict value, with `msg` the `str(e)` text. -/
inductive WorkerJson where
  | obj (initialized : Option Bool)
  | parseFailure (msg : String)
deriving DecidableEq

/-- What the health probe `client.get(...)` produced: a response with a status
code and a body decode outcome, or a transport exception with its `str(e)`. -/
inductive HealthProbe where
  | response (status : Nat) (body : WorkerJson)
  | exception (msg : String)
deriving DecidableEq

/-- The `result` dict of `health_check` (lines 36-63). `worker_initialized`
and `worker_error` are `none` when the corresponding key is absent. -/
structure HealthReport where
  status : String
  worker_configured : Bool
  worker_url : String
  worker_status : String
  worker_initialized : Option Bool
  worker_error : Option String
deriving DecidableEq

/-- Lines 33-63: the health check endpoint. When a URL is configured, a
decode failure on the 200 path is caught by the `except Exception` handler at
lines 56-59 (note `response.json()` at line 50 runs before `worker_status`
is set to `"healthy"` at line 51, and a failing `.get` at line 52 overwrites
`"healthy"` with `"error"`), so in every failure case the final report has
`worker_status = "error"` and `worker_error = str(e)`. -/
def health_check (worker_url : String) (probe : HealthProbe) : HealthReport :=
  let base : HealthReport :=
    { status := "ok"
      worker_configured := worker_url != ""
      worker_url := worker_url
      worker_status := ""
      worker_initialized := none
      worker_error := none }
  if worker_url = "" then
    { base with worker_status := "not_configured" }
  else
    match probe with
    | .exception msg =>
        { base with worker_status := "error", worker_error := some msg }
    | .response code body =>
        if code = 200 then
          match body with
          | .obj init? =>
              { base with
                  worker_status := "healthy"
                  worker_initialized := some (init?.getD false) }
          | .parseFailure msg =>
              { base with worker_status := "error", worker_error := some msg }
        else
          { base with
              worker_status := "error"
              worker_error := some ("HTTP " ++ toString code) }

/-- Line 43's guard: an outbound health probe is attempted exactly when a
Worker URL is configured. -/
def healthProbeIssued (worker_url : String) : Bool :=
  worker_url != ""

/-! Helper lemmas. -/

/-- The head surviving a `dropWhile` does not satisfy the dropped predicate. -/
theorem head?_dropWhile_false {α : Type} (p : α → Bool) :
    ∀ (l : List α) (a : α), (l.dropWhile p).head? = some a → p a = false := by
  intro l
  induction l with
  | nil => intro a h; simp [List.dropWhile] at h
  | cons x xs ih =>
    intro a h
    by_cases hx : p x = true
    · rw [List.dropWhile_cons_of_pos hx] at h
      exact ih a h
    · rw [List.dropWhile_cons_of_neg hx] at h
      simp only [List.head?_cons, Option.some.injEq] at h
      subst h
      exact Bool.eq_false_iff.mpr hx

/-- After `rstrip('/')` the string never ends in a slash. -/
theorem rstripSlash_no_trailing (s : String) :
    (rstripSlash s).data.getLast? ≠ some '/' := by
  intro h
  rw [rstripSlash] at h
  simp only [List.getLast?_reverse] at h
  have := head?_dropWhile_false (fun c => c = '/') s.data.reverse '/' h
  simp at this

/-- After `lstrip('/')` the string never starts with a slash. -/
theorem lstripSlash_no_leading (s : String) :
    (lstripSlash s).data.head? ≠ some '/' := by
  intro h
  rw [lstripSlash] at h
  have := head?_dropWhile_false (fun c => c = '/') s.data '/' h
  simp at this

/-- A key is in a dict after insertion iff it was there or is the inserted one. -/
theorem dictInsert_mem_fst (d : List (String × String)) (k v a : String) :
    a ∈ (dictInsert d k v).map Prod.fst ↔ a ∈ d.map Prod.fst ∨ a = k := by
  unfold dictInsert
  by_cases hk : d.any (fun kv => kv.1 = k) = true
  · rw [if_pos hk]
    have hmap : (d.map (fun kv => if kv.1 = k then (kv.1, v) else kv)).map Prod.fst
        = d.map Prod.fst := by
      rw [List.map_map]
      apply List.map_congr_left
      intro kv _
      by_cases hkv : kv.1 = k
      · simp [hkv]
      · simp [hkv]
    rw [hmap]
    constructor
    · exact Or.inl
    · rintro (h | h)
      · exact h
      · subst h
        simp only [List.any_eq_true, decide_eq_true_eq] at hk
        obtain ⟨kv, hkv, hke⟩ := hk
        exact List.mem_map.mpr ⟨kv, hkv, hke⟩
  · rw [if_neg hk]
    simp

/-- When no entry of the dict has the inserted key, insertion appends. -/
theorem dictInsert_not_mem (d : List (String × String)) (k v : String)
    (h : d.any (fun kv => kv.1 = k) = false) :
    dictInsert d k v = d ++ [(k, v)] := by
  unfold dictInsert
  rw [if_neg (by simp [h])]

/-- Name-level behaviour of the header-filtering fold: a name is a key of the
resulting dict iff it is a key of the accumulator or a non-denied inbound name. -/
theorem foldl_filterHeadersStep_mem_fst (deny : List String) :
    ∀ (items acc : List (String × String)) (a : String),
      a ∈ ((items.foldl (filterHeadersStep deny) acc).map Prod.fst) ↔
        (a ∈ acc.map Prod.fst ∨
          (a ∈ items.map Prod.fst ∧ deny.contains (lowerName a) = false)) := by
  intro items
  induction items with
  | nil => intro acc a; simp
  | cons kv rest ih =>
    intro acc a
    rw [List.foldl_cons]
    by_cases hd : deny.contains (lowerName kv.1) = true
    · have hstep : filterHeadersStep deny acc kv = acc := by
        unfold filterHeadersStep
        rw [if_pos hd]
      rw [hstep, ih]
      constructor
      · rintro (h1 | ⟨h2, h3⟩)
        · exact Or.inl h1
        · exact Or.inr ⟨List.mem_cons_of_mem _ h2, h3⟩
      · rintro (h1 | ⟨h2, h3⟩)
        · exact Or.inl h1
        · rw [List.map_cons, List.mem_cons] at h2
          rcases h2 with h2 | h2
          · rw [h2] at h3
            rw [h3] at hd
            cases hd
          · exact Or.inr ⟨h2, h3⟩
    · have hstep : filterHeadersStep deny acc kv = dictInsert acc kv.1 kv.2 := by
        unfold filterHeadersStep
        rw [if_neg hd]
      rw [hstep, ih]
      rw [dictInsert_mem_fst]
      have hfree : deny.contains (lowerName kv.1) = false := Bool.eq_false_iff.mpr hd
      constructor
      · rintro (⟨h1 | h1⟩ | ⟨h2, h3⟩)
        · exact Or.inl h1
        · subst h1
          exact Or.inr ⟨by simp, hfree⟩
        · exact Or.inr ⟨List.mem_cons_of_mem _ h2, h3⟩
      · rintro (h1 | ⟨h2, h3⟩)
        · exact Or.inl (Or.inl h1)
        · rw [List.map_cons, List.mem_cons] at h2
          rcases h2 with h2 | h2
          · exact Or.inl (Or.inr h2)
          · exact Or.inr ⟨h2, h3⟩

/-- When the item keys (with those of the accumulator) are duplicate-free, the
header-filtering fold is a plain filter appended to the accumulator. -/
theorem foldl_filterHeadersStep_eq_filter (deny : List String) :
    ∀ (items acc : List (String × String)),
      ((acc ++ items).map Prod.fst).Nodup →
      items.foldl (filterHeadersStep deny) acc = acc ++ items.filter (headerKept deny) := by
  intro items
  induction items with
  | nil => intro acc _; simp
  | cons kv rest ih =>
    intro acc hnd
    rw [List.foldl_cons]
    by_cases hd : deny.contains (lowerName kv.1) = true
    · have hstep : filterHeadersStep deny acc kv = acc := by
        unfold filterHeadersStep
        rw [if_pos hd]
      have hkept : headerKept deny kv = false := by
        unfold headerKept
        rw [hd]
        rfl
      rw [hstep, List.filter_cons_of_neg (by simp [hkept])]
      apply ih
      refine List.Nodup.sublist (List.Sublist.map Prod.fst ?_) hnd
      exact (List.append_sublist_append_left acc).mpr (List.sublist_cons_self kv rest)
    · have hstep : filterHeadersStep deny acc kv = dictInsert acc kv.1 kv.2 := by
        unfold filterHeadersStep
        rw [if_neg hd]
      have hkept : headerKept deny kv = true := by
        unfold headerKept
        rw [Bool.eq_false_iff.mpr hd]
        rfl
      have hnotin : kv.1 ∉ acc.map Prod.fst := by
        intro hmem
        rw [List.map_append, List.nodup_append] at hnd
        exact hnd.2.2 hmem (by simp)
      have hany : acc.any (fun p => p.1 = kv.1) = false := by
        rw [List.any_eq_false]
        intro p hp
        simp only [decide_eq_true_eq]
        intro hpe
        exact hnotin (List.mem_map.mpr ⟨p, hp, hpe⟩)
      rw [hstep, dictInsert_not_mem acc kv.1 kv.2 hany]
      have hrearr : (acc ++ [(kv.1, kv.2)]) ++ rest = acc ++ (kv :: rest) := by
        simp
      rw [ih (acc ++ [(kv.1, kv.2)]) (by rw [hrearr]; exact hnd)]
      rw [List.filter_cons_of_pos (by simpa using hkept)]
      simp

/-- Name-level behaviour of `filterHeaders`. -/
theorem filterHeaders_mem_fst (deny : List String) (items : List (String × String))
    (a : String) :
    a ∈ (filterHeaders deny items).map Prod.fst ↔
      (a ∈ items.map Prod.fst ∧ deny.contains (lowerName a) = false) := by
  unfold filterHeaders
  rw [foldl_filterHeadersStep_mem_fst]
  simp

/-- On duplicate-free header names `filterHeaders` is a plain filter. -/
theorem filterHeaders_eq_filter (deny : List String) (items : List (String × String))
    (h : (items.map Prod.fst).Nodup) :
    filterHeaders deny items = items.filter (headerKept deny) := by
  unfold filterHeaders
  have := foldl_filterHeadersStep_eq_filter deny items [] (by simpa using h)
  simpa using this

/-- On duplicate-free names the comma-joining fold of httpx
`Headers.items()` never merges, so it only appends. -/
theorem foldl_httpxJoinStep_nodup :
    ∀ (items acc : List (String × String)),
      ((acc ++ items).map Prod.fst).Nodup →
      items.foldl httpxJoinStep acc = acc ++ items := by
  intro items
  induction items with
  | nil => intro acc _; simp
  | cons kv rest ih =>
    intro acc hnd
    rw [List.foldl_cons]
    have hnotin : kv.1 ∉ acc.map Prod.fst := by
      intro hmem
      rw [List.map_append, List.nodup_append] at hnd
      exact hnd.2.2 hmem (by simp)
    have hany : acc.any (fun p => p.1 = kv.1) = false := by
      rw [List.any_eq_false]
      intro p hp
      simp only [decide_eq_true_eq]
      intro hpe
      exact hnotin (List.mem_map.mpr ⟨p, hp, hpe⟩)
    have hstep : httpxJoinStep acc kv = acc ++ [kv] := by
      unfold httpxJoinStep
      rw [if_neg (by simp [hany])]
    have hrearr : (acc ++ [kv]) ++ rest = acc ++ (kv :: rest) := by
      simp
    rw [hstep, ih (acc ++ [kv]) (by rw [hrearr]; exact hnd)]
    simp

/-- On duplicate-free names httpx `Headers.items()` is the identity. -/
theorem httpxItems_nodup_id (items : List (String × String))
    (h : (items.map Prod.fst).Nodup) :
    httpxItems items = items := by
  unfold httpxItems
  have := foldl_httpxJoinStep_nodup items [] (by simpa using h)
  simpa using this

/-! Claim theorems. -/

/-- C1 counterexample: the code's join strips ALL slashes at the join point
(Python `rstrip` and `lstrip`), not exactly one, so with a base ending in two
slashes the computed target differs from the claim's strip-exactly-one rule. -/
theorem buildWorkerUrl_not_strip_one :
    buildWorkerUrl "http://w:9//" "admin/keys" = "http://w:9/admin/keys"
    ∧ buildWorkerUrlSpecStripOne "http://w:9//" "admin/keys" = "http://w:9//admin/keys"
    ∧ buildWorkerUrl "http://w:9//" "admin/keys"
        ≠ buildWorkerUrlSpecStripOne "http://w:9//" "admin/keys" := by
  decide

/-- C1 (amended): the proxy's target URL is the base with every trailing slash
stripped, then a single slash, then the path with every leading slash
stripped, so the join point carries exactly one slash; for base
`http://w:9` and path `admin/keys` the target is `http://w:9/admin/keys`
for any combination of leading and trailing slashes on either side. -/
theorem proxy_target_url_strips_all_slashes :
    (∀ base path : String,
        buildWorkerUrl base path = rstripSlash base ++ "/" ++ lstripSlash path
        ∧ (rstripSlash base).data.getLast? ≠ some '/'
        ∧ (lstripSlash path).data.head? ≠ some '/')
    ∧ (∀ (worker_url path : String) (req : ProxyRequest), worker_url ≠ "" →
        ∃ ob, outboundRequestOf worker_url path req = some ob
          ∧ ob.url = buildWorkerUrl worker_url path)
    ∧ buildWorkerUrl "http://w:9" "admin/keys" = "http://w:9/admin/keys"
    ∧ buildWorkerUrl "http://w:9/" "admin/keys" = "http://w:9/admin/keys"
    ∧ buildWorkerUrl "http://w:9" "/admin/keys" = "http://w:9/admin/keys"
    ∧ buildWorkerUrl "http://w:9/" "/admin/keys" = "http://w:9/admin/keys"
    ∧ buildWorkerUrl "http://w:9//" "///admin/keys" = "http://w:9/admin/keys" := by
  refine ⟨?_, ?_, by decide, by decide, by decide, by decide, by decide⟩
  · intro base path
    exact ⟨rfl, rstripSlash_no_trailing base, lstripSlash_no_leading path⟩
  · intro worker_url path req h
    unfold outboundRequestOf
    rw [if_neg h]
    exact ⟨_, rfl, rfl⟩

/-- C1 witness: the target URL of a concrete outbound request. -/
theorem proxy_target_url_strips_all_slashes_witness :
    ∃ ob, outboundRequestOf "http://w:9//" "///admin/keys" ⟨"GET", [], [], []⟩ = some ob
      ∧ ob.url = buildWorkerUrl "http://w:9//" "///admin/keys" :=
  proxy_target_url_strips_all_slashes.2.1 "http://w:9//" "///admin/keys"
    ⟨"GET", [], [], []⟩ (by decide)

/-- C2 counterexample: duplicate Worker header names do not pass through as
duplicates — httpx `Headers.items()` comma-joins them into one value before
the dict comprehension ever runs, so the program returns the single entry
`x-dup: "1, 2"` instead of both copies. -/
theorem response_headers_duplicate_collapse :
    proxy_worker "http://w:9" "p" ⟨"GET", [], [], []⟩
        (fun _ => .response 200 [("x-dup", "1"), ("x-dup", "2")] [])
      = .response 200 [("x-dup", "1, 2")] []
    ∧ ([("x-dup", "1, 2")] : List (String × String))
        ≠ ([("x-dup", "1"), ("x-dup", "2")] : List (String × String)).filter
            (headerKept responseHeaderDeny) := by
  decide

/-- C2 (amended): status code and body are copied verbatim, and when the
Worker's header names are duplicate-free the returned headers are exactly the
Worker's headers minus `content-encoding`, `content-length`,
`transfer-encoding`, `connection` (case-insensitively); a duplicated name is
not relayed as duplicates but as one comma-joined entry, because the
iteration is over httpx `Headers.items()` and the result is a dict. -/
theorem response_headers_filter_passthrough :
    ∀ (worker_url path : String) (req : ProxyRequest) (status : Nat)
      (hs : List (String × String)) (content : List Nat),
      worker_url ≠ "" → (hs.map Prod.fst).Nodup →
      proxy_worker worker_url path req (fun _ => .response status hs content)
        = .response status (hs.filter (headerKept responseHeaderDeny)) content := by
  intro worker_url path req status hs content hu hnd
  unfold proxy_worker outboundRequestOf
  rw [if_neg hu]
  dsimp only
  rw [httpxItems_nodup_id hs hnd, filterHeaders_eq_filter responseHeaderDeny hs hnd]

/-- C2 witness: a concrete response with one stripped and one kept header. -/
theorem response_headers_filter_passthrough_witness :
    proxy_worker "http://w:9" "p" ⟨"GET", [], [], []⟩
        (fun _ => .response 200 [("Content-Encoding", "gzip"), ("X-Served-By", "worker")] [1, 2])
      = .response 200
          (([("Content-Encoding", "gzip"), ("X-Served-By", "worker")] :
              List (String × String)).filter (headerKept responseHeaderDeny)) [1, 2] :=
  response_headers_filter_passthrough "http://w:9" "p" ⟨"GET", [], [], []⟩ 200
    [("Content-Encoding", "gzip"), ("X-Served-By", "worker")] [1, 2] (by decide) (by decide)

/-- C3 counterexample: on HTTP 200 with an unparsable body, `response.json()`
raises before `worker_status` is set, the exception lands in the
`except Exception` handler, and the report says `error`, not `healthy`. -/
theorem health_parse_error_reports_error :
    (health_check "http://w:9" (.response 200 (.parseFailure "Expecting value"))).worker_status
        = "error"
    ∧ (health_check "http://w:9" (.response 200 (.parseFailure "Expecting value"))).worker_status
        ≠ "healthy"
    ∧ (health_check "http://w:9" (.response 200 (.parseFailure "Expecting value"))).worker_initialized
        = none := by
  decide

/-- C3 (amended): on HTTP 200 with a body parsing to an object,
`worker_status` is `healthy` and `worker_initialized` copies the
`initialized` field, defaulting to `false` when absent; on HTTP 200 with an
unparsable body the report degrades to `worker_status = "error"` with the
parse failure text as `worker_error` (still returned, never raised). -/
theorem health_200_branch :
    ∀ (worker_url : String) (init? : Option Bool) (msg : String),
      worker_url ≠ "" →
      (health_check worker_url (.response 200 (.obj init?))
        = { status := "ok", worker_configured := true, worker_url := worker_url,
            worker_status := "healthy", worker_initialized := some (init?.getD false),
            worker_error := none })
      ∧ (health_check worker_url (.response 200 (.obj none))).worker_initialized = some false
      ∧ (health_check worker_url (.response 200 (.parseFailure msg))
        = { status := "ok", worker_configured := true, worker_url := worker_url,
            worker_status := "error", worker_initialized := none,
            worker_error := some msg }) := by
  intro worker_url init? msg hu
  have hb : (worker_url != "") = true := bne_iff_ne.mpr hu
  unfold health_check
  simp only [if_neg hu]
  rw [hb]
  exact ⟨rfl, rfl, rfl⟩

/-- C3 witness: a 200 response with body initialized true gives a healthy,
initialized report. -/
theorem health_200_branch_witness :
    health_check "http://w:9" (.response 200 (.obj (some true)))
      = { status := "ok", worker_configured := true, worker_url := "http://w:9",
          worker_status := "healthy", worker_initialized := some true,
          worker_error := none } :=
  (health_200_branch "http://w:9" (some true) "x" (by decide)).1

/-- C4: with an unset or empty Worker URL the proxy answers HTTP 400 for every
method, path, headers, query and body, the detail text names the Worker URL
configuration, and no outbound request is built (the outcome is the same for
every possible Worker behaviour). -/
theorem proxy_unconfigured_400 :
    ∀ (path : String) (req : ProxyRequest) (worker : OutboundRequest → WorkerResult),
      proxy_worker "" path req worker = .httpError 400 configErrorDetail
      ∧ ("Worker URL").data.isPrefixOf configErrorDetail.data = true
      ∧ outboundRequestOf "" path req = none := by
  intro path req worker
  exact ⟨rfl, by decide, rfl⟩

/-- C5: a timeout of the outbound call is answered with HTTP 504; every other
transport-level `httpx.HTTPError` (connection refused, DNS failure, protocol
error — anything that is neither a `TimeoutException` nor an
`HTTPStatusError`) is answered with HTTP 502; a timeout is itself an
`httpx.HTTPError`, and the `except` chain classifies it first, so the 504
classification takes precedence and the two classes are disjoint. -/
theorem proxy_error_status_classes :
    ∀ (worker_url path : String) (req : ProxyRequest) (e : PyException),
      worker_url ≠ "" →
      (isTimeoutException e = true →
        ∃ d, proxy_worker worker_url path req (fun _ => .exc e) = .httpError 504 d)
      ∧ (isHTTPError e = true → isTimeoutException e = false → isHTTPStatusError e = false →
        ∃ d, proxy_worker worker_url path req (fun _ => .exc e) = .httpError 502 d)
      ∧ (isTimeoutException e = true → isHTTPError e = true) := by
  intro worker_url path req e hu
  have hred : proxy_worker worker_url path req (fun _ => .exc e) = handleProxyException e := by
    unfold proxy_worker outboundRequestOf
    rw [if_neg hu]
  refine ⟨?_, ?_, ?_⟩
  · intro ht
    cases e with
    | timeout m => exact ⟨_, hred⟩
    | statusError c t => simp [isTimeoutException] at ht
    | connectError m => simp [isTimeoutException] at ht
    | protocolError m => simp [isTimeoutException] at ht
    | other m => simp [isTimeoutException] at ht
  · intro hh ht hs
    cases e with
    | timeout m => simp [isTimeoutException] at ht
    | statusError c t => simp [isHTTPStatusError] at hs
    | connectError m => exact ⟨_, hred⟩
    | protocolError m => exact ⟨_, hred⟩
    | other m => simp [isHTTPError] at hh
  · intro ht
    cases e with
    | timeout m => rfl
    | statusError c t => simp [isTimeoutException] at ht
    | connectError m => simp [isTimeoutException] at ht
    | protocolError m => simp [isTimeoutException] at ht
    | other m => simp [isTimeoutException] at ht

/-- C5 witness: a concrete timeout is answered 504 and a concrete connection
failure 502. -/
theorem proxy_error_status_classes_witness :
    (∃ d, proxy_worker "http://w:9" "a" ⟨"GET", [], [], []⟩
        (fun _ => .exc (.timeout "read timeout")) = .httpError 504 d)
    ∧ (∃ d, proxy_worker "http://w:9" "a" ⟨"GET", [], [], []⟩
        (fun _ => .exc (.connectError "connection refused")) = .httpError 502 d) :=
  ⟨(proxy_error_status_classes "http://w:9" "a" ⟨"GET", [], [], []⟩ (.timeout "read timeout")
      (by decide)).1 (by decide),
   (proxy_error_status_classes "http://w:9" "a" ⟨"GET", [], [], []⟩
      (.connectError "connection refused") (by decide)).2.1 (by decide) (by decide) (by decide)⟩

/-- C6: whenever the Worker replies — with any status code, 503 included — the
proxy's outcome carries the Worker's own status code and body verbatim (only
the headers are filtered); a Worker-reported error status is never turned
into a 502. -/
theorem proxy_status_body_passthrough :
    (∀ (worker_url path : String) (req : ProxyRequest) (status : Nat)
        (hs : List (String × String)) (content : List Nat),
      worker_url ≠ "" →
      proxy_worker worker_url path req (fun _ => .response status hs content)
        = .response status (filterHeaders responseHeaderDeny (httpxItems hs)) content)
    ∧ proxy_worker "http://w:9" "status" ⟨"GET", [], [], []⟩
        (fun _ => .response 503 [] [98, 117, 115, 121])
        = .response 503 [] [98, 117, 115, 121] := by
  constructor
  · intro worker_url path req status hs content hu
    unfold proxy_worker outboundRequestOf
    rw [if_neg hu]
  · decide

/-- C6 witness: a Worker 503 with a body is passed through as-is. -/
theorem proxy_status_body_passthrough_witness :
    proxy_worker "http://w:9" "api/chat" ⟨"POST", [], [], [1]⟩
        (fun _ => .response 418 [("X-W", "1")] [7])
      = .response 418 (filterHeaders responseHeaderDeny (httpxItems [("X-W", "1")])) [7] :=
  proxy_status_body_passthrough.1 "http://w:9" "api/chat" ⟨"POST", [], [], [1]⟩ 418
    [("X-W", "1")] [7] (by decide)

/-- C7: the outbound header set is the inbound headers minus exactly the names
`host`, `connection`, `content-length`, `accept-encoding`, matched
case-insensitively and exact-match on the name: a name survives iff it is an
inbound name whose lowercase form is not in that deny set; with
duplicate-free names the whole entries are kept verbatim; and the claim's
example `Host,Connection,X-Custom` keeps only `X-Custom`. -/
theorem request_headers_filter :
    (∀ (worker_url path : String) (req : ProxyRequest), worker_url ≠ "" →
      ∃ ob, outboundRequestOf worker_url path req = some ob
        ∧ ob.headers = filterHeaders requestHeaderDeny req.headers)
    ∧ (∀ (items : List (String × String)) (a : String),
        a ∈ (filterHeaders requestHeaderDeny items).map Prod.fst ↔
          (a ∈ items.map Prod.fst ∧ requestHeaderDeny.contains (lowerName a) = false))
    ∧ (∀ items : List (String × String), (items.map Prod.fst).Nodup →
        filterHeaders requestHeaderDeny items = items.filter (headerKept requestHeaderDeny))
    ∧ filterHeaders requestHeaderDeny [("Host", "x"), ("Connection", "y"), ("X-Custom", "z")]
        = [("X-Custom", "z")] := by
  refine ⟨?_, ?_, ?_, by decide⟩
  · intro worker_url path req hu
    unfold outboundRequestOf
    rw [if_neg hu]
    exact ⟨_, rfl, rfl⟩
  · intro items a
    exact filterHeaders_mem_fst requestHeaderDeny items a
  · intro items h
    exact filterHeaders_eq_filter requestHeaderDeny items h

/-- C7 witness: the outbound headers of a concrete request, and the filter on
a concrete duplicate-free header list. -/
theorem request_headers_filter_witness :
    (∃ ob, outboundRequestOf "http://w:9" "a" ⟨"GET", [("Host", "x")], [], []⟩ = some ob
        ∧ ob.headers = filterHeaders requestHeaderDeny [("Host", "x")])
    ∧ filterHeaders requestHeaderDeny [("Host", "x"), ("Connection", "y"), ("X-Custom", "z")]
        = ([("Host", "x"), ("Connection", "y"), ("X-Custom", "z")] :
            List (String × String)).filter (headerKept requestHeaderDeny) :=
  ⟨request_headers_filter.1 "http://w:9" "a" ⟨"GET", [("Host", "x")], [], []⟩ (by decide),
   request_headers_filter.2.2.1 [("Host", "x"), ("Connection", "y"), ("X-Custom", "z")]
     (by decide)⟩

/-- C8: the outbound request keeps the inbound method and query parameters;
an absent or zero-length inbound body yields no outbound body at all
(`None`, never an empty body), and a non-empty body is forwarded verbatim. -/
theorem proxy_outbound_request_shape :
    ∀ (worker_url path : String) (req : ProxyRequest),
      worker_url ≠ "" →
      ∃ ob : OutboundRequest,
        outboundRequestOf worker_url path req = some ob
        ∧ ob.method = req.method
        ∧ ob.params = req.query_params
        ∧ (req.body = [] → ob.content = none)
        ∧ (req.body ≠ [] → ob.content = some req.body)
        ∧ ob.content ≠ some [] := by
  intro worker_url path req hu
  unfold outboundRequestOf
  rw [if_neg hu]
  refine ⟨_, rfl, rfl, rfl, ?_, ?_, ?_⟩
  · intro hb
    simp [hb]
  · intro hb
    simp [hb]
  · by_cases hb : req.body = []
    · simp [hb]
    · simp [hb]

/-- C8 witness: a concrete empty-body DELETE keeps its method and query and
carries no outbound body. -/
theorem proxy_outbound_request_shape_witness :
    ∃ ob : OutboundRequest,
      outboundRequestOf "http://w:9" "a" ⟨"DELETE", [], [("q", "1")], []⟩ = some ob
      ∧ ob.method = "DELETE"
      ∧ ob.params = [("q", "1")]
      ∧ (([] : List Nat) = [] → ob.content = none)
      ∧ (([] : List Nat) ≠ [] → ob.content = some [])
      ∧ ob.content ≠ some [] :=
  proxy_outbound_request_shape "http://w:9" "a" ⟨"DELETE", [], [("q", "1")], []⟩ (by decide)

/-- C9: with no configured Worker URL the health report is exactly
`status="ok"`, `worker_configured=false`, `worker_url=""`,
`worker_status="not_configured"` with no other fields, whatever the probe
would have produced; the probe guard is false so no outbound call is made;
and for every configuration and probe outcome `health_check` returns a
report (with `status="ok"`) rather than raising. -/
theorem health_not_configured_report :
    (∀ probe : HealthProbe,
        health_check "" probe
          = { status := "ok", worker_configured := false, worker_url := "",
              worker_status := "not_configured", worker_initialized := none,
              worker_error := none })
    ∧ healthProbeIssued "" = false
    ∧ (∀ (worker_url : String) (probe : HealthProbe),
        (health_check worker_url probe).status = "ok") := by
  refine ⟨fun probe => rfl, rfl, ?_⟩
  intro worker_url probe
  unfold health_check
  split
  · rfl
  · cases probe with
    | exception m => rfl
    | response code body =>
      dsimp only
      split
      · cases body <;> rfl
      · rfl

/-- C10 counterexample: when the caught exception's text is empty,
`worker_error` is present but empty (`str(e)` can be `""`), refuting the
claim's "and then worker_error is non-empty". -/
theorem health_error_field_may_be_empty :
    (health_check "http://w:9" (.exception "")).worker_status = "error"
    ∧ (health_check "http://w:9" (.exception "")).worker_error = some "" := by
  decide

/-- C10 (amended): in every health report `worker_initialized` is present
exactly when `worker_status` is `healthy`, `worker_error` is present exactly
when `worker_status` is `error`, neither is present when `worker_status` is
`not_configured`, and no other status occurs; `worker_error` carries the
failure description, which may itself be empty. -/
theorem health_report_field_exclusivity :
    ∀ (worker_url : String) (probe : HealthProbe),
      ((health_check worker_url probe).worker_initialized.isSome
        ↔ (health_check worker_url probe).worker_status = "healthy")
      ∧ ((health_check worker_url probe).worker_error.isSome
        ↔ (health_check worker_url probe).worker_status = "error")
      ∧ ((health_check worker_url probe).worker_status = "not_configured" →
          (health_check worker_url probe).worker_initialized = none
          ∧ (health_check worker_url probe).worker_error = none)
      ∧ (health_check worker_url probe).worker_status ∈
          ["not_configured", "healthy", "error"] := by
  intro worker_url probe
  by_cases hu : worker_url = ""
  · subst hu
    refine ⟨?_, ?_, fun _ => ⟨rfl, rfl⟩, ?_⟩
    · show false = true ↔ ("not_configured" : String) = "healthy"
      decide
    · show false = true ↔ ("not_configured" : String) = "error"
      decide
    · show ("not_configured" : String) ∈ ["not_configured", "healthy", "error"]
      decide
  · unfold health_check
    simp only [if_neg hu]
    cases probe with
    | exception m =>
      refine ⟨?_, ?_, ?_, ?_⟩
      · show false = true ↔ ("error" : String) = "healthy"
        decide
      · show true = true ↔ ("error" : String) = "error"
        decide
      · intro h
        exact absurd (show ("error" : String) = "not_configured" from h) (by decide)
      · show ("error" : String) ∈ ["not_configured", "healthy", "error"]
        decide
    | response code body =>
      by_cases hc : code = 200
      · subst hc
        cases body with
        | obj init? =>
          refine ⟨?_, ?_, ?_, ?_⟩
          · show true = true ↔ ("healthy" : String) = "healthy"
            decide
          · show false = true ↔ ("healthy" : String) = "error"
            decide
          · intro h
            exact absurd (show ("healthy" : String) = "not_configured" from h) (by decide)
          · show ("healthy" : String) ∈ ["not_configured", "healthy", "error"]
            decide
        | parseFailure m =>
          refine ⟨?_, ?_, ?_, ?_⟩
          · show false = true ↔ ("error" : String) = "healthy"
            decide
          · show true = true ↔ ("error" : String) = "error"
            decide
          · intro h
            exact absurd (show ("error" : String) = "not_configured" from h) (by decide)
          · show ("error" : String) ∈ ["not_configured", "healthy", "error"]
            decide
      · simp only [if_neg hc]
        refine ⟨?_, ?_, ?_, ?_⟩
        · show false = true ↔ ("error" : String) = "healthy"
          decide
        · exact ⟨fun _ => trivial, fun _ => rfl⟩
        · intro h
          exact absurd (show ("error" : String) = "not_configured" from h) (by decide)
        · show ("error" : String) ∈ ["not_configured", "healthy", "error"]
          decide

/-- C10 witness: the not-configured report carries neither optional field. -/
theorem health_report_field_exclusivity_witness :
    (health_check "" (.exception "x")).worker_initialized = none
    ∧ (health_check "" (.exception "x")).worker_error = none :=
  (health_report_field_exclusivity "" (.exception "x")).2.2.1 (by decide)
